import Mathlib

/-!
Shallow embedding of src/seg7multiplex.c: a multi-digit 7-segment display
multiplexer sharing its serial data pin with an interrupt-driven input
protocol.  Machine integers are modelled as Nat with explicit truncation
(mod 256 / 65536 / 2^32) at every point where the C code stores into a
fixed-width field and the value could exceed that width.  Pin writes are
modelled as a trace of events; pin reads appear as function parameters.
The two interrupt handlers and the main loop become pure state-transition
functions on an explicit state record.
-/

namespace Seg7

/-- DIGITS compile-time constant (default configuration). -/
def DIGITS : Nat := 4

/-- MAX_SER_CYCLES_BEFORE_TIMEOUT constant. -/
def MAX_SER_CYCLES_BEFORE_TIMEOUT : Nat := 3

/-- SerialQueue struct: a 16-slot ring of bits packed in a uint16, with
uint8 write and read indices. -/
structure SerialQueue where
  data : Nat
  write_index : Nat
  read_index : Nat
deriving DecidableEq, Repr

/-- State after serial_queue_init: all fields zero. -/
def serial_queue_init : SerialQueue := { data := 0, write_index := 0, read_index := 0 }

/-- serial_queue_write: store the bit at write_index (set or clear that bit
of the packed uint16), advance write_index, wrapping at 16.  The C code
computes 1 << write_index as a 32-bit int and the complement for the clear
case is the 32-bit complement; the store truncates to uint16 and the
incremented index is a uint8. -/
def serial_queue_write (q : SerialQueue) (data : Bool) : SerialQueue :=
  let d := if data then q.data ||| (1 <<< q.write_index)
           else q.data &&& (4294967295 ^^^ (1 <<< q.write_index))
  let w := (q.write_index + 1) % 256
  { data := d % 65536, write_index := if w = 16 then 0 else w, read_index := q.read_index }

/-- serial_queue_read: none when read_index equals write_index, otherwise
the bit at read_index (nonzero test of data masked with 1 << read_index)
and the queue with read_index advanced, wrapping at 16. -/
def serial_queue_read (q : SerialQueue) : Option (Bool × SerialQueue) :=
  if q.read_index = q.write_index then none
  else
    let b := decide (0 < q.data &&& (1 <<< q.read_index))
    let r := (q.read_index + 1) % 256
    some (b, { q with read_index := if r = 16 then 0 else r })

/-- Write a whole list of bits in order (iterated serial_queue_write). -/
def serial_queue_write_list (q : SerialQueue) : List Bool → SerialQueue
  | [] => q
  | b :: bs => serial_queue_write_list (serial_queue_write q b) bs

/-- Read bits until the queue reports empty, returning them in order along
with the final queue.  Fuel bounds the iteration; with in-range indices at
most 15 reads can succeed, so fuel 16 is always enough. -/
def serial_queue_read_all : Nat → SerialQueue → List Bool × SerialQueue
  | 0, q => ([], q)
  | fuel + 1, q =>
    match serial_queue_read q with
    | none => ([], q)
    | some (b, q1) =>
      let rest := serial_queue_read_all fuel q1
      (b :: rest.1, rest.2)

/-- SRValueSenderStatus enum. -/
inductive SRValueSenderStatus where
  | Beginning
  | Middle
  | Last
  | Finished
deriving DecidableEq, Repr

/-- SRValueSender struct: value being sent, bit index 0..8, clock phase. -/
structure SRValueSender where
  val : Nat
  index : Nat
  going_high : Bool
deriving DecidableEq, Repr

/-- init_sr_sender: fresh sender for an 8-bit value. -/
def init_sr_sender (val : Nat) : SRValueSender :=
  { val := val, index := 0, going_high := false }

/-- Pin transitions performed by the display output path. -/
inductive PinEvent where
  | setSER (high : Bool)
  | highSRCLK
  | lowSRCLK
deriving DecidableEq, Repr

/-- sr_sender_step: one pin half-cycle.  Returns the status, the updated
sender, and the pin events issued during the call.  While index < 8: in
the going_high phase drive SER to bit (7 - index) of val (nonzero test of
val masked with 1 << (7 - index)) and SRCLK high, then advance; otherwise
drive SRCLK low and flag going_high.  Past index 8 nothing happens. -/
def sr_sender_step (s : SRValueSender) : SRValueSenderStatus × SRValueSender × List PinEvent :=
  if s.index < 8 then
    if s.going_high then
      let res := if s.index = 7 then SRValueSenderStatus.Last else SRValueSenderStatus.Middle
      (res, { s with going_high := false, index := s.index + 1 },
        [PinEvent.setSER (decide (0 < s.val &&& (1 <<< (7 - s.index)))), PinEvent.highSRCLK])
    else
      let res := if s.index = 0 then SRValueSenderStatus.Beginning else SRValueSenderStatus.Middle
      (res, { s with going_high := true }, [PinEvent.lowSRCLK])
  else
    (SRValueSenderStatus.Finished, s, [])

/-- Sender state after n calls of sr_sender_step. -/
def sr_run : Nat → SRValueSender → SRValueSender
  | 0, s => s
  | n + 1, s => (sr_sender_step (sr_run n s)).2.1

/-- Status returned by the n-th call (1-based) of sr_sender_step after
init_sr_sender val. -/
def sr_status_call (val n : Nat) : SRValueSenderStatus :=
  (sr_sender_step (sr_run (n - 1) (init_sr_sender val))).1

/-- Concatenated pin events of the first n calls of sr_sender_step. -/
def sr_trace : Nat → SRValueSender → List PinEvent
  | 0, _ => []
  | n + 1, s => (sr_sender_step s).2.2 ++ sr_trace n (sr_sender_step s).2.1

/-- glyph_matches from the source: a digit owns its identically numbered
glyph; glyphs above 15 match nothing; digit 8 matches everything that
reaches that test; shared glyphs use the fixed switch table. -/
def glyph_matches (glyph digit : Nat) : Bool :=
  if glyph < 10 ∧ glyph = digit then true
  else if glyph > 15 then false
  else if digit = 8 then true
  else
    match glyph with
    | 1 => decide (digit = 0 ∨ digit = 3 ∨ digit = 4 ∨ digit = 7 ∨ digit = 9)
    | 5 => decide (digit = 6)
    | 7 => decide (digit = 0 ∨ digit = 3 ∨ digit = 9)
    | 10 => decide (digit = 2 ∨ digit = 6)
    | 11 => decide (digit = 3 ∨ digit = 5 ∨ digit = 6)
    | 12 => decide (digit = 4 ∨ digit = 9)
    | 13 => decide (digit = 5 ∨ digit = 6 ∨ digit = 9)
    | 14 => decide (digit = 6)
    | _ => false

/-- Loop body of glyph_match_mask: n remaining digit positions, current
value, current position i, accumulator res. -/
def glyph_match_mask_aux (glyph : Nat) : Nat → Nat → Nat → Nat → Nat
  | 0, _, _, res => res
  | n + 1, val, i, res =>
    glyph_match_mask_aux glyph n (val / 10) (i + 1)
      (if glyph_matches glyph (val % 10) then res ||| (1 <<< i) else res)

/-- glyph_match_mask: decompose val (a uint16) into DIGITS decimal digits,
least significant at position 0, and set bit i of the result when the
glyph matches the digit at position i. -/
def glyph_match_mask (val glyph : Nat) : Nat :=
  glyph_match_mask_aux glyph DIGITS val 0 0

/-- Modelled from the spec: int_pow10 lives in common/intmath.c, which is
outside the multiplexer unit; the spec states the fold uses place weight
10 to the power digit_count, so the helper is the power function. -/
def int_pow10 (n : Nat) : Nat := 10 ^ n

/-- All mutable state of the unit: the two interrupt flags, the input
decoder fields, the display accumulator, the glyph cursor, the bit queue
and the embedded shift-register sender. -/
structure Seg7State where
  refresh_needed : Bool
  input_mode : Bool
  ser_input : Nat
  ser_input_pos : Nat
  display_value : Nat
  display_dotmask : Nat
  digit_count : Nat
  ser_timeout : Nat
  current_glyph : Nat
  queue : SerialQueue
  sr : SRValueSender
deriving Repr

/-- Tail of push_digit after the dot flag has been handled: values 10 and
above are discarded; otherwise the digit is folded into display_value at
place 10 to the digit_count and digit_count is incremented (uint32 store
for the value, uint8 for the counter). -/
def push_digit_flush (s : Seg7State) (value : Nat) : Seg7State :=
  if 10 ≤ value then s
  else if s.digit_count = 0 then
    { s with display_value := value, digit_count := (s.digit_count + 1) % 256 }
  else
    { s with
        display_value := (s.display_value + value * int_pow10 s.digit_count) % 4294967296,
        digit_count := (s.digit_count + 1) % 256 }

/-- push_digit: when bit 4 of the 5-bit value is set, first record the
decimal point for the current digit position in display_dotmask (uint8
store) and mask the flag out of the value; then flush the 4-bit digit. -/
def push_digit (s : Seg7State) (value : Nat) : Seg7State :=
  if value &&& 16 ≠ 0 then
    push_digit_flush
      { s with display_dotmask := (s.display_dotmask ||| (1 <<< s.digit_count)) % 256 }
      (value &&& 15)
  else
    push_digit_flush s value

/-- begin_input_mode: arm the watchdog and clear the decoder state and the
display accumulator. -/
def begin_input_mode (s : Seg7State) : Seg7State :=
  { s with
      input_mode := true
      ser_timeout := MAX_SER_CYCLES_BEFORE_TIMEOUT
      digit_count := 0
      display_value := 0
      display_dotmask := 0
      ser_input_pos := 0
      ser_input := 0 }

/-- end_input_mode: back to display mode, watchdog off, queue cleared. -/
def end_input_mode (s : Seg7State) : Seg7State :=
  { s with input_mode := false, ser_timeout := 0, queue := serial_queue_init }

/-- send_next_glyph: advance the glyph cursor (uint8), skipping the blank
marker 15 (which only pulses the count line), then start a new
shift-register transmission of the digit-select mask.  The display_value
argument of glyph_match_mask is a uint16 parameter, so the uint32
accumulator is truncated at the call. -/
def send_next_glyph (s : Seg7State) : Seg7State :=
  let g0 := (s.current_glyph + 1) % 256
  let g := if g0 = 15 then 0 else g0
  { s with
      current_glyph := g
      sr := init_sr_sender (glyph_match_mask (s.display_value % 65536) g) }

/-- The while loop draining the serial queue inside seg7multiplex_loop.
Each drained bit is ORed into ser_input at ser_input_pos (uint8 stores)
and rearms the watchdog; a full 5-bit group is flushed through push_digit,
and when digit_count reaches DIGITS the loop ends input mode and returns
early (second component true).  Fuel bounds the iteration: with in-range
indices the queue yields at most 15 bits, so fuel 16 is always enough. -/
def input_drain : Nat → Seg7State → Seg7State × Bool
  | 0, s => (s, false)
  | fuel + 1, s =>
    match serial_queue_read s.queue with
    | none => (s, false)
    | some (flag, q1) =>
      let s1 := { s with queue := q1 }
      let s2 := if flag
        then { s1 with ser_input := (s1.ser_input ||| (1 <<< s1.ser_input_pos)) % 256 }
        else s1
      let s3 := { s2 with
        ser_input_pos := (s2.ser_input_pos + 1) % 256,
        ser_timeout := MAX_SER_CYCLES_BEFORE_TIMEOUT }
      if s3.ser_input_pos = 5 then
        let s4 := push_digit s3 s3.ser_input
        let s5 := { s4 with ser_input := 0, ser_input_pos := 0 }
        if s5.digit_count = DIGITS then (end_input_mode s5, true)
        else input_drain fuel s5
      else input_drain fuel s3

/-- seg7multiplex_loop: one main-loop iteration.  In input mode: set up on
a zero watchdog, drain the queue (possibly returning early), then account
one watchdog tick when a refresh was pending, aborting with the leftmost
dot lit when the countdown hits zero (uint8 decrement).  In display mode:
one sender step, and on Finished start the next glyph cycle if a refresh
tick is pending. -/
def seg7multiplex_loop (s : Seg7State) : Seg7State :=
  if s.input_mode then
    let s1 := if s.ser_timeout = 0 then begin_input_mode s else s
    let dr := input_drain 16 s1
    if dr.2 then dr.1
    else
      let s2 := dr.1
      if s2.refresh_needed then
        let s3 := { s2 with
          refresh_needed := false,
          ser_timeout := (s2.ser_timeout + 255) % 256 }
        if s3.ser_timeout = 0 then
          { end_input_mode s3 with display_dotmask := 1 }
        else s3
      else s2
  else
    let step := sr_sender_step s.sr
    let s4 := { s with sr := step.2.1 }
    match step.1 with
    | SRValueSenderStatus.Finished =>
      if s4.refresh_needed then send_next_glyph { s4 with refresh_needed := false }
      else s4
    | _ => s4

/-- INT0 edge interrupt: the first edge while in display mode only
announces input; every further edge samples the input pin (the level
parameter) and pushes it into the queue. -/
def seg7multiplex_int0_interrupt (level : Bool) (s : Seg7State) : Seg7State :=
  if ¬ s.input_mode then { s with input_mode := true }
  else { s with queue := serial_queue_write s.queue level }

/-- Timer compare interrupt: flag that a refresh is due. -/
def seg7multiplex_timer0_interrupt (s : Seg7State) : Seg7State :=
  { s with refresh_needed := true }

/-- State established by seg7multiplex_setup.  Fields the C setup does not
assign keep their static zero initialisation; the sender index starts at 8
so the sender begins finished. -/
def seg7multiplex_setup : Seg7State :=
  { refresh_needed := true
    input_mode := false
    ser_input := 0
    ser_input_pos := 0
    display_value := 0
    display_dotmask := 0
    digit_count := 0
    ser_timeout := 0
    current_glyph := 0
    queue := serial_queue_init
    sr := { val := 0, index := 8, going_high := false } }

/-- Deliver each bit by an INT0 edge and run one main-loop iteration after
each edge. -/
def run_input_bits : List Bool → Seg7State → Seg7State
  | [], s => s
  | b :: bs, s => run_input_bits bs (seg7multiplex_loop (seg7multiplex_int0_interrupt b s))

/-- Fire the refresh timer and run one main-loop iteration, n times. -/
def run_tick_loops : Nat → Seg7State → Seg7State
  | 0, s => s
  | n + 1, s => run_tick_loops n (seg7multiplex_loop (seg7multiplex_timer0_interrupt s))

/-- Wire bits of the end-to-end scenario: the four 5-bit groups encoding
digits 1, 2, 3 and 4, dot flags clear, each group delivered with the bit
for accumulator position 0 first (the decoder ORs the k-th bit of a group
into position k). -/
def c1_bits : List Bool :=
  [true, false, false, false, false,
   false, true, false, false, false,
   true, true, false, false, false,
   false, false, true, false, false]

/-- End state of the end-to-end decode scenario: announce edge from the
setup state, then the twenty data bits. -/
def c1_final : Seg7State :=
  run_input_bits c1_bits (seg7multiplex_int0_interrupt true seg7multiplex_setup)

/-- Start state of the timeout scenario: announce edge alone from the
setup state. -/
def c7_start : Seg7State :=
  seg7multiplex_int0_interrupt true seg7multiplex_setup

/-- Claim-side rendering of the shared-glyph table from the spec: glyph 1
matches digits 0, 3, 4, 7, 9; glyph 5 matches 6; glyph 7 matches 0, 3, 9;
glyph 10 matches 2, 6; glyph 11 matches 3, 5, 6; glyph 12 matches 4, 9;
glyph 13 matches 5, 6, 9; glyph 14 matches 6. -/
def glyph_digit_table (g d : Nat) : Bool :=
  decide ((g = 1 ∧ (d = 0 ∨ d = 3 ∨ d = 4 ∨ d = 7 ∨ d = 9)) ∨
          (g = 5 ∧ d = 6) ∨
          (g = 7 ∧ (d = 0 ∨ d = 3 ∨ d = 9)) ∨
          (g = 10 ∧ (d = 2 ∨ d = 6)) ∨
          (g = 11 ∧ (d = 3 ∨ d = 5 ∨ d = 6)) ∨
          (g = 12 ∧ (d = 4 ∨ d = 9)) ∨
          (g = 13 ∧ (d = 5 ∨ d = 6 ∨ d = 9)) ∨
          (g = 14 ∧ d = 6))

lemma and_one_shift_testBit (v k : Nat) :
    decide (0 < v &&& (1 <<< k)) = v.testBit k := by
  rw [Nat.one_shiftLeft, Nat.and_two_pow]
  cases h : v.testBit k <;> simp [Nat.two_pow_pos]

lemma and_mask_testBit (v k m : Nat) (hm : 1 <<< k = m) :
    decide (0 < v &&& m) = v.testBit k := by
  rw [← hm, and_one_shift_testBit]

lemma sr_trace_two (b k k2 n : Nat) (hk : k < 8) (hk2 : k2 = k + 1) :
    sr_trace (n + 2) ⟨b, k, false⟩ =
      PinEvent.lowSRCLK :: PinEvent.setSER (decide (0 < b &&& (1 <<< (7 - k)))) ::
      PinEvent.highSRCLK :: sr_trace n ⟨b, k2, false⟩ := by
  subst hk2
  have hlow : sr_sender_step ⟨b, k, false⟩ =
      ((if k = 0 then SRValueSenderStatus.Beginning else SRValueSenderStatus.Middle),
       ⟨b, k, true⟩, [PinEvent.lowSRCLK]) := by
    unfold sr_sender_step
    rw [if_pos hk]
    rfl
  have hhigh : sr_sender_step ⟨b, k, true⟩ =
      ((if k = 7 then SRValueSenderStatus.Last else SRValueSenderStatus.Middle),
       ⟨b, k + 1, false⟩,
       [PinEvent.setSER (decide (0 < b &&& (1 <<< (7 - k)))), PinEvent.highSRCLK]) := by
    unfold sr_sender_step
    rw [if_pos hk]
    rfl
  have ha1 : (sr_sender_step (⟨b, k, false⟩ : SRValueSender)).2.1 = ⟨b, k, true⟩ := by
    rw [hlow]
  have ha2 : (sr_sender_step (⟨b, k, false⟩ : SRValueSender)).2.2 = [PinEvent.lowSRCLK] := by
    rw [hlow]
  have hb1 : (sr_sender_step (⟨b, k, true⟩ : SRValueSender)).2.1 = ⟨b, k + 1, false⟩ := by
    rw [hhigh]
  have hb2 : (sr_sender_step (⟨b, k, true⟩ : SRValueSender)).2.2 =
      [PinEvent.setSER (decide (0 < b &&& (1 <<< (7 - k)))), PinEvent.highSRCLK] := by
    rw [hhigh]
  have h1 : sr_trace (n + 2) (⟨b, k, false⟩ : SRValueSender) =
      (sr_sender_step ⟨b, k, false⟩).2.2
        ++ sr_trace (n + 1) (sr_sender_step ⟨b, k, false⟩).2.1 := rfl
  have h2 : sr_trace (n + 1) (⟨b, k, true⟩ : SRValueSender) =
      (sr_sender_step ⟨b, k, true⟩).2.2
        ++ sr_trace n (sr_sender_step ⟨b, k, true⟩).2.1 := rfl
  rw [h1, ha1, ha2, h2, hb1, hb2]
  simp

lemma sr_run_succ (n : Nat) (s : SRValueSender) :
    sr_run (n + 1) s = (sr_sender_step (sr_run n s)).2.1 := rfl

lemma sr_st1 (b : Nat) : sr_run 1 (init_sr_sender b) = ⟨b, 0, true⟩ := by
  rw [show (1 : Nat) = 0 + 1 from rfl, sr_run_succ]
  rfl

lemma sr_st2 (b : Nat) : sr_run 2 (init_sr_sender b) = ⟨b, 1, false⟩ := by
  rw [show (2 : Nat) = 1 + 1 from rfl, sr_run_succ, sr_st1]
  rfl

lemma sr_st3 (b : Nat) : sr_run 3 (init_sr_sender b) = ⟨b, 1, true⟩ := by
  rw [show (3 : Nat) = 2 + 1 from rfl, sr_run_succ, sr_st2]
  rfl

lemma sr_st4 (b : Nat) : sr_run 4 (init_sr_sender b) = ⟨b, 2, false⟩ := by
  rw [show (4 : Nat) = 3 + 1 from rfl, sr_run_succ, sr_st3]
  rfl

lemma sr_st5 (b : Nat) : sr_run 5 (init_sr_sender b) = ⟨b, 2, true⟩ := by
  rw [show (5 : Nat) = 4 + 1 from rfl, sr_run_succ, sr_st4]
  rfl

lemma sr_st6 (b : Nat) : sr_run 6 (init_sr_sender b) = ⟨b, 3, false⟩ := by
  rw [show (6 : Nat) = 5 + 1 from rfl, sr_run_succ, sr_st5]
  rfl

lemma sr_st7 (b : Nat) : sr_run 7 (init_sr_sender b) = ⟨b, 3, true⟩ := by
  rw [show (7 : Nat) = 6 + 1 from rfl, sr_run_succ, sr_st6]
  rfl

lemma sr_st8 (b : Nat) : sr_run 8 (init_sr_sender b) = ⟨b, 4, false⟩ := by
  rw [show (8 : Nat) = 7 + 1 from rfl, sr_run_succ, sr_st7]
  rfl

lemma sr_st9 (b : Nat) : sr_run 9 (init_sr_sender b) = ⟨b, 4, true⟩ := by
  rw [show (9 : Nat) = 8 + 1 from rfl, sr_run_succ, sr_st8]
  rfl

lemma sr_st10 (b : Nat) : sr_run 10 (init_sr_sender b) = ⟨b, 5, false⟩ := by
  rw [show (10 : Nat) = 9 + 1 from rfl, sr_run_succ, sr_st9]
  rfl

lemma sr_st11 (b : Nat) : sr_run 11 (init_sr_sender b) = ⟨b, 5, true⟩ := by
  rw [show (11 : Nat) = 10 + 1 from rfl, sr_run_succ, sr_st10]
  rfl

lemma sr_st12 (b : Nat) : sr_run 12 (init_sr_sender b) = ⟨b, 6, false⟩ := by
  rw [show (12 : Nat) = 11 + 1 from rfl, sr_run_succ, sr_st11]
  rfl

lemma sr_st13 (b : Nat) : sr_run 13 (init_sr_sender b) = ⟨b, 6, true⟩ := by
  rw [show (13 : Nat) = 12 + 1 from rfl, sr_run_succ, sr_st12]
  rfl

lemma sr_st14 (b : Nat) : sr_run 14 (init_sr_sender b) = ⟨b, 7, false⟩ := by
  rw [show (14 : Nat) = 13 + 1 from rfl, sr_run_succ, sr_st13]
  rfl

lemma sr_st15 (b : Nat) : sr_run 15 (init_sr_sender b) = ⟨b, 7, true⟩ := by
  rw [show (15 : Nat) = 14 + 1 from rfl, sr_run_succ, sr_st14]
  rfl

lemma sr_st16 (b : Nat) : sr_run 16 (init_sr_sender b) = ⟨b, 8, false⟩ := by
  rw [show (16 : Nat) = 15 + 1 from rfl, sr_run_succ, sr_st15]
  rfl

lemma sr_run_after_16 (b j : Nat) :
    sr_run (16 + j) (init_sr_sender b) = { val := b, index := 8, going_high := false } := by
  induction j with
  | zero => exact sr_st16 b
  | succ j ih =>
    have h : sr_run (16 + (j + 1)) (init_sr_sender b)
        = (sr_sender_step (sr_run (16 + j) (init_sr_sender b))).2.1 := rfl
    rw [h, ih]
    rfl

lemma sr_status_of_state (b n : Nat) (st : SRValueSender)
    (h : sr_run (n - 1) (init_sr_sender b) = st) :
    sr_status_call b n = (sr_sender_step st).1 := by
  unfold sr_status_call
  rw [h]

/-- Claim C2 (amended): for every value b, the status sequence of repeated
sr_sender_step calls after init_sr_sender b is: call 1 Beginning, calls 2
through 15 Middle, call 16 Last, and call 17 and every later call
Finished, so 16 calls complete the transmission and the 17th call first
reports Finished. -/
theorem sr_sender_call_schedule (b : Nat) :
    sr_status_call b 1 = SRValueSenderStatus.Beginning ∧
    (∀ k, 2 ≤ k → k ≤ 15 → sr_status_call b k = SRValueSenderStatus.Middle) ∧
    sr_status_call b 16 = SRValueSenderStatus.Last ∧
    (∀ k, 17 ≤ k → sr_status_call b k = SRValueSenderStatus.Finished) := by
  refine ⟨?_, ?_, ?_, ?_⟩
  · rw [sr_status_of_state b 1 ⟨b, 0, false⟩ rfl]
    rfl
  · intro k h2 h15
    interval_cases k
    · rw [sr_status_of_state b 2 ⟨b, 0, true⟩ (sr_st1 b)]
      rfl
    · rw [sr_status_of_state b 3 ⟨b, 1, false⟩ (sr_st2 b)]
      rfl
    · rw [sr_status_of_state b 4 ⟨b, 1, true⟩ (sr_st3 b)]
      rfl
    · rw [sr_status_of_state b 5 ⟨b, 2, false⟩ (sr_st4 b)]
      rfl
    · rw [sr_status_of_state b 6 ⟨b, 2, true⟩ (sr_st5 b)]
      rfl
    · rw [sr_status_of_state b 7 ⟨b, 3, false⟩ (sr_st6 b)]
      rfl
    · rw [sr_status_of_state b 8 ⟨b, 3, true⟩ (sr_st7 b)]
      rfl
    · rw [sr_status_of_state b 9 ⟨b, 4, false⟩ (sr_st8 b)]
      rfl
    · rw [sr_status_of_state b 10 ⟨b, 4, true⟩ (sr_st9 b)]
      rfl
    · rw [sr_status_of_state b 11 ⟨b, 5, false⟩ (sr_st10 b)]
      rfl
    · rw [sr_status_of_state b 12 ⟨b, 5, true⟩ (sr_st11 b)]
      rfl
    · rw [sr_status_of_state b 13 ⟨b, 6, false⟩ (sr_st12 b)]
      rfl
    · rw [sr_status_of_state b 14 ⟨b, 6, true⟩ (sr_st13 b)]
      rfl
    · rw [sr_status_of_state b 15 ⟨b, 7, false⟩ (sr_st14 b)]
      rfl
  · rw [sr_status_of_state b 16 ⟨b, 7, true⟩ (sr_st15 b)]
    rfl
  · intro k h17
    have hk : sr_run (k - 1) (init_sr_sender b) = ⟨b, 8, false⟩ := by
      rw [show k - 1 = 16 + (k - 17) from by omega, sr_run_after_16]
    rw [sr_status_of_state b k ⟨b, 8, false⟩ hk]
    rfl

/-- Claim C2 counterexample: with value 0, call 15 returns Middle (the claim
says Last) and call 16 returns Last (the claim says Finished). -/
theorem sr_sender_call_schedule_cex :
    sr_status_call 0 15 = SRValueSenderStatus.Middle ∧
    sr_status_call 0 15 ≠ SRValueSenderStatus.Last ∧
    sr_status_call 0 16 = SRValueSenderStatus.Last ∧
    sr_status_call 0 16 ≠ SRValueSenderStatus.Finished := by
  decide

theorem sr_sender_call_schedule_witness :
    sr_status_call 171 1 = SRValueSenderStatus.Beginning ∧
    sr_status_call 171 9 = SRValueSenderStatus.Middle ∧
    sr_status_call 171 16 = SRValueSenderStatus.Last ∧
    sr_status_call 171 23 = SRValueSenderStatus.Finished :=
  ⟨(sr_sender_call_schedule 171).1,
   (sr_sender_call_schedule 171).2.1 9 (by norm_num) (by norm_num),
   (sr_sender_call_schedule 171).2.2.1,
   (sr_sender_call_schedule 171).2.2.2 23 (by norm_num)⟩

/-- Claim C8: over a full 16-call transmission of b, the pin-event trace shifts
the bits of b most-significant-first, each data write issued together with
the low-to-high clock edge that follows a clock-low step. -/
theorem sr_trace_msb_first (b : Nat) :
    sr_trace 16 (init_sr_sender b) =
      [PinEvent.lowSRCLK, PinEvent.setSER (b.testBit 7), PinEvent.highSRCLK,
       PinEvent.lowSRCLK, PinEvent.setSER (b.testBit 6), PinEvent.highSRCLK,
       PinEvent.lowSRCLK, PinEvent.setSER (b.testBit 5), PinEvent.highSRCLK,
       PinEvent.lowSRCLK, PinEvent.setSER (b.testBit 4), PinEvent.highSRCLK,
       PinEvent.lowSRCLK, PinEvent.setSER (b.testBit 3), PinEvent.highSRCLK,
       PinEvent.lowSRCLK, PinEvent.setSER (b.testBit 2), PinEvent.highSRCLK,
       PinEvent.lowSRCLK, PinEvent.setSER (b.testBit 1), PinEvent.highSRCLK,
       PinEvent.lowSRCLK, PinEvent.setSER (b.testBit 0), PinEvent.highSRCLK] := by
  have hinit : sr_trace 16 (init_sr_sender b) = sr_trace 16 ⟨b, 0, false⟩ := rfl
  rw [hinit,
      (sr_trace_two b 0 1 14 (by norm_num) rfl :
        sr_trace 16 (⟨b, 0, false⟩ : SRValueSender) = _),
      (sr_trace_two b 1 2 12 (by norm_num) rfl :
        sr_trace 14 (⟨b, 1, false⟩ : SRValueSender) = _),
      (sr_trace_two b 2 3 10 (by norm_num) rfl :
        sr_trace 12 (⟨b, 2, false⟩ : SRValueSender) = _),
      (sr_trace_two b 3 4 8 (by norm_num) rfl :
        sr_trace 10 (⟨b, 3, false⟩ : SRValueSender) = _),
      (sr_trace_two b 4 5 6 (by norm_num) rfl :
        sr_trace 8 (⟨b, 4, false⟩ : SRValueSender) = _),
      (sr_trace_two b 5 6 4 (by norm_num) rfl :
        sr_trace 6 (⟨b, 5, false⟩ : SRValueSender) = _),
      (sr_trace_two b 6 7 2 (by norm_num) rfl :
        sr_trace 4 (⟨b, 6, false⟩ : SRValueSender) = _),
      (sr_trace_two b 7 8 0 (by norm_num) rfl :
        sr_trace 2 (⟨b, 7, false⟩ : SRValueSender) = _)]
  simp [sr_trace, and_mask_testBit b 7 128 rfl, and_mask_testBit b 6 64 rfl,
        and_mask_testBit b 5 32 rfl, and_mask_testBit b 4 16 rfl,
        and_mask_testBit b 3 8 rfl, and_mask_testBit b 2 4 rfl,
        and_mask_testBit b 1 2 rfl, and_mask_testBit b 0 1 rfl]
  omega

/-- Claim C5: on the claimed domain, glyph_matches agrees with: identical glyph
and digit, or digit 8, or the fixed shared-glyph table. -/
theorem glyph_matches_spec_table (g d : Nat) (hg : g < 15) (hd : d < 10) :
    glyph_matches g d = (decide (g = d) || decide (d = 8) || glyph_digit_table g d) := by
  interval_cases g <;> interval_cases d <;> rfl

theorem glyph_matches_spec_table_witness :
    glyph_matches 1 3 = (decide ((1 : Nat) = 3) || decide ((3 : Nat) = 8) || glyph_digit_table 1 3) :=
  glyph_matches_spec_table 1 3 (by norm_num) (by norm_num)

/-- Claim C9 counterexample: glyph 15 with digit 8 does not return false (the
early digit-8 test fires before any glyph-range check). -/
theorem glyph_matches_blank_cex : ¬ (glyph_matches 15 8 = false) := by
  decide

/-- Claim C9 (amended): every glyph above 15 matches no digit at all, and the
blank glyph 15 matches no digit in 0..9 except digit 8, which it does
match. -/
theorem glyph_matches_out_of_range (g d : Nat) :
    (15 < g → glyph_matches g d = false) ∧
    (g = 15 → d < 10 → glyph_matches g d = decide (d = 8)) := by
  constructor
  · intro hg
    unfold glyph_matches
    rw [if_neg (by omega : ¬ (g < 10 ∧ g = d)), if_pos (by omega : g > 15)]
  · intro hg hd
    subst hg
    interval_cases d <;> rfl

theorem glyph_matches_out_of_range_witness :
    glyph_matches 16 3 = false ∧ glyph_matches 15 7 = decide ((7 : Nat) = 8) :=
  ⟨(glyph_matches_out_of_range 16 3).1 (by norm_num),
   (glyph_matches_out_of_range 15 7).2 rfl (by norm_num)⟩

/-- Claim C7: after the announce edge alone, three main-loop iterations each
with a pending refresh tick end input mode, light exactly the leftmost
dot, and leave display_value zero; after only two such iterations input
mode is still active. -/
theorem input_timeout_recovery :
    (run_tick_loops 3 c7_start).input_mode = false ∧
    (run_tick_loops 3 c7_start).display_dotmask = 1 ∧
    (run_tick_loops 3 c7_start).display_value = 0 ∧
    (run_tick_loops 2 c7_start).input_mode = true := by
  decide

/-- Claim C1 counterexample: the end-to-end decode of digit sequence 1, 2, 3, 4
leaves display_value at 4321, not 1234: push_digit folds the k-th
received digit at place weight 10 to the k minus 1. -/
theorem end_to_end_decode_cex :
    c1_final.display_value = 4321 ∧ ¬ (c1_final.display_value = 1234) := by
  decide

/-- Claim C1 (amended): after the announce edge and the four 5-bit groups for
digits 1, 2, 3, 4 with dot flags clear, the loop ends with display_value
4321 (the first-received digit occupies decimal place 0, which is the
leftmost physical digit position), digit_count 4, display mode resumed
and no decimal points set. -/
theorem end_to_end_decode_amended :
    c1_final.display_value = 4321 ∧ c1_final.digit_count = 4 ∧
    c1_final.input_mode = false ∧ c1_final.display_dotmask = 0 := by
  decide

/-- Claim C4 counterexample: the invalid 5-bit value 27 (dot flag set, digit
field 11) changes display_dotmask before the digit is discarded. -/
theorem push_digit_invalid_cex :
    (push_digit seg7multiplex_setup 27).display_dotmask ≠ seg7multiplex_setup.display_dotmask := by
  decide

/-- Claim C4 (amended): a flushed 5-bit value with digit field 10 or more is
discarded leaving display_value and digit_count untouched; display_dotmask
is also untouched when the dot flag is clear, but when the dot flag is set
the dot for the current digit position has already been recorded before
the discard. -/
theorem push_digit_invalid_amended (s : Seg7State) (v : Nat)
    (hv : v < 32) (h10 : 10 ≤ v &&& 15) :
    (push_digit s v).display_value = s.display_value ∧
    (push_digit s v).digit_count = s.digit_count ∧
    (push_digit s v).display_dotmask =
      (if v &&& 16 ≠ 0 then (s.display_dotmask ||| (1 <<< s.digit_count)) % 256
       else s.display_dotmask) := by
  interval_cases v <;>
    first
      | exact absurd h10 (by decide)
      | exact ⟨rfl, rfl, rfl⟩

lemma serial_queue_write_bits (d w r : Nat) (b : Bool) (hd : d < 65536) (hw : w ≤ 15) :
    ∃ e, serial_queue_write ⟨d, w, r⟩ b = ⟨e, if w = 15 then 0 else w + 1, r⟩ ∧
      e < 65536 ∧ ∀ i, e.testBit i = if i = w then b else d.testBit i := by
  have hwi : (if (w + 1) % 256 = 16 then 0 else (w + 1) % 256) = if w = 15 then 0 else w + 1 := by
    by_cases h : w = 15
    · subst h
      norm_num
    · rw [Nat.mod_eq_of_lt (by omega), if_neg (by omega), if_neg h]
  cases b with
  | true =>
    have hlt : d ||| 1 <<< w < 65536 := by
      rw [Nat.one_shiftLeft]
      have hd2 : d < 2 ^ 16 := lt_of_lt_of_eq hd (by norm_num)
      have h2 : (2 : Nat) ^ w < 2 ^ 16 := Nat.pow_lt_pow_right (by norm_num) (by omega)
      exact lt_of_lt_of_eq (Nat.or_lt_two_pow hd2 h2) (by norm_num)
    refine ⟨d ||| 1 <<< w, ?_, hlt, ?_⟩
    · show ({ data := (d ||| 1 <<< w) % 65536,
              write_index := if (w + 1) % 256 = 16 then 0 else (w + 1) % 256,
              read_index := r } : SerialQueue) = _
      rw [hwi, Nat.mod_eq_of_lt hlt]
    · intro i
      rw [Nat.one_shiftLeft, Nat.testBit_or]
      by_cases hi : i = w
      · subst hi
        rw [Nat.testBit_two_pow_self, if_pos rfl]
        simp
      · rw [Nat.testBit_two_pow_of_ne (fun hh => hi hh.symm), if_neg hi]
        simp
  | false =>
    have hle : d &&& (4294967295 ^^^ 1 <<< w) ≤ d := Nat.and_le_left
    have hlt : d &&& (4294967295 ^^^ 1 <<< w) < 65536 := lt_of_le_of_lt hle hd
    refine ⟨d &&& (4294967295 ^^^ 1 <<< w), ?_, hlt, ?_⟩
    · show ({ data := (d &&& (4294967295 ^^^ 1 <<< w)) % 65536,
              write_index := if (w + 1) % 256 = 16 then 0 else (w + 1) % 256,
              read_index := r } : SerialQueue) = _
      rw [hwi, Nat.mod_eq_of_lt hlt]
    · intro i
      rw [Nat.one_shiftLeft, Nat.testBit_and, Nat.testBit_xor]
      have h32 : (4294967295 : Nat).testBit i = decide (i < 32) := by
        rw [show (4294967295 : Nat) = 2 ^ 32 - 1 from by norm_num, Nat.testBit_two_pow_sub_one]
      rw [h32]
      by_cases hi : i = w
      · subst hi
        rw [Nat.testBit_two_pow_self, if_pos rfl]
        have hi32 : i < 32 := by omega
        simp [hi32]
      · rw [Nat.testBit_two_pow_of_ne (fun hh => hi hh.symm), if_neg hi]
        by_cases h32b : i < 32
        · simp [h32b]
        · have hfb : d.testBit i = false := by
            refine Nat.testBit_eq_false_of_lt (lt_of_lt_of_le hd ?_)
            calc (65536 : Nat) = 2 ^ 16 := by norm_num
              _ ≤ 2 ^ i := Nat.pow_le_pow_right (by norm_num) (by omega)
          simp [h32b, hfb]

lemma serial_queue_write_list_bits :
    ∀ (bs : List Bool) (d w r : Nat), d < 65536 → w + bs.length ≤ 15 →
    ∃ e, serial_queue_write_list ⟨d, w, r⟩ bs = ⟨e, w + bs.length, r⟩ ∧ e < 65536 ∧
      (∀ i (h : i < bs.length), e.testBit (w + i) = bs.get ⟨i, h⟩) ∧
      (∀ i, i < w ∨ w + bs.length ≤ i → e.testBit i = d.testBit i) := by
  intro bs
  induction bs with
  | nil =>
    intro d w r hd hw
    refine ⟨d, by simp [serial_queue_write_list], hd, ?_, ?_⟩
    · intro i h
      simp at h
    · intro i _
      rfl
  | cons b bs ih =>
    intro d w r hd hw
    have hlen : (b :: bs).length = bs.length + 1 := List.length_cons b bs
    have hw14 : w ≤ 14 := by
      rw [hlen] at hw
      omega
    obtain ⟨e1, heq1, he1, hb1⟩ := serial_queue_write_bits d w r b hd (by omega)
    rw [if_neg (by omega : ¬ w = 15)] at heq1
    obtain ⟨e, heq, he, hget, hpres⟩ := ih e1 (w + 1) r he1 (by rw [hlen] at hw; omega)
    refine ⟨e, ?_, he, ?_, ?_⟩
    · have hstep : serial_queue_write_list ⟨d, w, r⟩ (b :: bs)
          = serial_queue_write_list (serial_queue_write ⟨d, w, r⟩ b) bs := rfl
      have harith : (w + 1) + bs.length = w + (bs.length + 1) := by omega
      rw [hstep, heq1, heq, hlen, harith]
    · intro i hilen
      match i with
      | 0 =>
        have h0 : e.testBit (w + 0) = e1.testBit w := by
          rw [Nat.add_zero]
          exact hpres w (Or.inl (by omega))
        rw [h0, hb1 w, if_pos rfl]
        rfl
      | j + 1 =>
        have hj : j < bs.length := by
          rw [hlen] at hilen
          omega
        have h1 : e.testBit (w + (j + 1)) = e.testBit ((w + 1) + j) := by
          rw [show w + (j + 1) = (w + 1) + j from by omega]
        rw [h1, hget j hj]
        rfl
    · intro i hi
      have hi2 : i < w + 1 ∨ (w + 1) + bs.length ≤ i := by
        rcases hi with h | h
        · exact Or.inl (by omega)
        · right
          rw [hlen] at h
          omega
      have hne : ¬ i = w := by
        rcases hi with h | h
        · omega
        · rw [hlen] at h
          omega
      rw [hpres i hi2, hb1 i, if_neg hne]

lemma serial_queue_read_all_no_wrap :
    ∀ (n fuel d w r : Nat), w ≤ 15 → r + n = w → n ≤ fuel →
    serial_queue_read_all fuel ⟨d, w, r⟩ =
      ((List.range n).map (fun i => d.testBit (r + i)), ⟨d, w, w⟩) := by
  intro n
  induction n with
  | zero =>
    intro fuel d w r hw hr hf
    have hrw : r = w := by omega
    subst hrw
    cases fuel with
    | zero => simp [serial_queue_read_all]
    | succ f => simp [serial_queue_read_all, serial_queue_read]
  | succ n ih =>
    intro fuel d w r hw hr hf
    cases fuel with
    | zero => omega
    | succ f =>
      have hread : serial_queue_read ⟨d, w, r⟩ = some (d.testBit r, ⟨d, w, r + 1⟩) := by
        unfold serial_queue_read
        rw [if_neg (by omega : ¬ r = w)]
        show some (decide (0 < d &&& (1 <<< r)),
          (⟨d, w, if (r + 1) % 256 = 16 then 0 else (r + 1) % 256⟩ : SerialQueue)) = _
        rw [Nat.mod_eq_of_lt (by omega : r + 1 < 256), if_neg (by omega : ¬ r + 1 = 16),
            and_one_shift_testBit]
      have hstep : serial_queue_read_all (f + 1) ⟨d, w, r⟩ =
          match serial_queue_read ⟨d, w, r⟩ with
          | none => ([], ⟨d, w, r⟩)
          | some (b, q1) =>
            (b :: (serial_queue_read_all f q1).1, (serial_queue_read_all f q1).2) := rfl
      rw [hstep, hread]
      show (d.testBit r :: (serial_queue_read_all f ⟨d, w, r + 1⟩).1,
            (serial_queue_read_all f ⟨d, w, r + 1⟩).2) = _
      rw [ih f d w (r + 1) hw (by omega) (by omega)]
      have hlist : d.testBit r :: (List.range n).map (fun i => d.testBit (r + 1 + i))
          = (List.range (n + 1)).map (fun i => d.testBit (r + i)) := by
        rw [List.range_succ_eq_map, List.map_cons, List.map_map]
        have htail : (fun i => d.testBit (r + 1 + i))
            = ((fun i => d.testBit (r + i)) ∘ Nat.succ) := by
          funext a
          show d.testBit (r + 1 + a) = d.testBit (r + (a + 1))
          congr 1
          omega
        rw [htail]
        simp
      rw [hlist]

/-- Claim C6: a fresh queue returns any sequence of at most 15 written bits in
order, after which it reads as empty. -/
theorem bitqueue_roundtrip (bs : List Bool) (h : bs.length ≤ 15) :
    (serial_queue_read_all 16 (serial_queue_write_list serial_queue_init bs)).1 = bs ∧
    serial_queue_read (serial_queue_read_all 16 (serial_queue_write_list serial_queue_init bs)).2
      = none := by
  obtain ⟨e, heq, he, hget, _⟩ := serial_queue_write_list_bits bs 0 0 0 (by norm_num) (by omega)
  have h0 : serial_queue_write_list serial_queue_init bs = ⟨e, bs.length, 0⟩ := by
    rw [show serial_queue_init = (⟨0, 0, 0⟩ : SerialQueue) from rfl, heq]
    simp
  rw [h0, serial_queue_read_all_no_wrap bs.length 16 e bs.length 0 (by omega) (by omega)
        (by omega)]
  constructor
  · apply List.ext_get
    · simp
    · intro i h1 h2
      simp only [List.get_map, List.get_range]
      exact hget i h2
  · unfold serial_queue_read
    simp

theorem bitqueue_roundtrip_witness :
    (serial_queue_read_all 16 (serial_queue_write_list serial_queue_init
      [true, false, true])).1 = [true, false, true] ∧
    serial_queue_read (serial_queue_read_all 16 (serial_queue_write_list serial_queue_init
      [true, false, true])).2 = none :=
  bitqueue_roundtrip [true, false, true] (by norm_num)

/-- Claim C3 counterexample: writing seventeen bits whose 2nd is the only set
bit, the queue then yields the single bit false (the 17th), not the
claimed sixteen bits 2 through 17 in order. -/
theorem bitqueue_overflow_cex :
    (serial_queue_read_all 16 (serial_queue_write_list serial_queue_init
      [false, true, false, false, false, false, false, false,
       false, false, false, false, false, false, false, false, false])).1 = [false] ∧
    (serial_queue_read_all 16 (serial_queue_write_list serial_queue_init
      [false, true, false, false, false, false, false, false,
       false, false, false, false, false, false, false, false, false])).1 ≠
      [true, false, false, false, false, false, false, false,
       false, false, false, false, false, false, false, false] := by
  constructor
  · decide
  · decide

/-- Claim C3 (amended): after seventeen writes on a fresh queue with no read, the
16th write makes the indices coincide so the queue reads as empty, and the
17th write lands in slot 0 overwriting the 1st bit; hence only the 17th
written bit is readable — bits 1 through 16 are all lost. -/
theorem bitqueue_overflow_17 (b1 b2 b3 b4 b5 b6 b7 b8 b9 b10 b11 b12 b13 b14 b15 b16 b17 : Bool) :
    (serial_queue_read_all 16 (serial_queue_write_list serial_queue_init
      [b1, b2, b3, b4, b5, b6, b7, b8, b9, b10, b11, b12, b13, b14, b15, b16, b17])).1
      = [b17] := by
  obtain ⟨e1, heq1, he1, _, _⟩ := serial_queue_write_list_bits
    [b1, b2, b3, b4, b5, b6, b7, b8, b9, b10, b11, b12, b13, b14, b15] 0 0 0
    (by norm_num) (by simp)
  simp only [List.length_cons, List.length_nil, Nat.zero_add] at heq1
  obtain ⟨e2, heq2, he2, hb2⟩ := serial_queue_write_bits e1 15 0 b16 he1 (by norm_num)
  rw [if_pos rfl] at heq2
  obtain ⟨e3, heq3, he3, hb3⟩ := serial_queue_write_bits e2 0 0 b17 he2 (by norm_num)
  rw [if_neg (by norm_num)] at heq3
  have hsplit : serial_queue_write_list serial_queue_init
      [b1, b2, b3, b4, b5, b6, b7, b8, b9, b10, b11, b12, b13, b14, b15, b16, b17]
      = serial_queue_write (serial_queue_write (serial_queue_write_list (⟨0, 0, 0⟩ : SerialQueue)
          [b1, b2, b3, b4, b5, b6, b7, b8, b9, b10, b11, b12, b13, b14, b15]) b16) b17 := rfl
  rw [hsplit, heq1, heq2, heq3,
      serial_queue_read_all_no_wrap 1 16 e3 1 0 (by norm_num) (by norm_num) (by norm_num)]
  have h0 : e3.testBit 0 = b17 := by
    rw [hb3 0, if_pos rfl]
  simp [List.range_succ, h0]

lemma push_digit_flush_bound (s : Seg7State) (v : Nat)
    (hdc : s.digit_count < DIGITS) (hdv : s.display_value < 10 ^ s.digit_count) :
    (push_digit_flush s v).display_value < 10 ^ (push_digit_flush s v).digit_count ∧
    (push_digit_flush s v).digit_count ≤ DIGITS := by
  unfold push_digit_flush
  by_cases h1 : 10 ≤ v
  · rw [if_pos h1]
    exact ⟨hdv, Nat.le_of_lt hdc⟩
  · rw [if_neg h1]
    by_cases h2 : s.digit_count = 0
    · rw [if_pos h2]
      refine ⟨?_, ?_⟩
      · show v < 10 ^ ((s.digit_count + 1) % 256)
        rw [h2]
        norm_num
        omega
      · show (s.digit_count + 1) % 256 ≤ DIGITS
        rw [h2]
        show 1 % 256 ≤ 4
        norm_num
    · rw [if_neg h2]
      have hdc4 : s.digit_count < 4 := hdc
      have hmod : (s.digit_count + 1) % 256 = s.digit_count + 1 := Nat.mod_eq_of_lt (by omega)
      have hpow : (10 : Nat) ^ s.digit_count ≤ 1000 := by
        calc (10 : Nat) ^ s.digit_count ≤ 10 ^ 3 := Nat.pow_le_pow_right (by norm_num) (by omega)
          _ = 1000 := by norm_num
      have hmul : v * 10 ^ s.digit_count ≤ 9 * 10 ^ s.digit_count :=
        Nat.mul_le_mul_right _ (by omega)
      have hsum : s.display_value + v * 10 ^ s.digit_count < 10 ^ (s.digit_count + 1) := by
        rw [Nat.pow_succ]
        omega
      have hsmall : s.display_value + v * 10 ^ s.digit_count < 4294967296 := by
        have : (10 : Nat) ^ (s.digit_count + 1) ≤ 10 ^ 4 :=
          Nat.pow_le_pow_right (by norm_num) (by omega)
        have h4 : (10 : Nat) ^ 4 = 10000 := by norm_num
        omega
      refine ⟨?_, ?_⟩
      · show (s.display_value + v * int_pow10 s.digit_count) % 4294967296
            < 10 ^ ((s.digit_count + 1) % 256)
        rw [hmod]
        unfold int_pow10
        rw [Nat.mod_eq_of_lt hsmall]
        exact hsum
      · show (s.digit_count + 1) % 256 ≤ DIGITS
        rw [hmod]
        show s.digit_count + 1 ≤ 4
        omega

/-- Claim C10: in the 4-digit configuration, the operations that mutate
display_value keep it below 10000, so the uint16 narrowing at the
glyph_match_mask call in send_next_glyph never loses information: before
a flush at most 3 digits are stored (display_value below 10 to the
digit_count), and push_digit, begin_input_mode and setup all preserve the
bound together with its exactness under reduction mod 65536. -/
theorem display_value_stays_small :
    (∀ s v, v < 32 → s.digit_count < DIGITS → s.display_value < 10 ^ s.digit_count →
      (push_digit s v).display_value < 10000 ∧
      (push_digit s v).display_value < 10 ^ (push_digit s v).digit_count ∧
      (push_digit s v).display_value % 65536 = (push_digit s v).display_value) ∧
    (∀ s, (begin_input_mode s).display_value < 10000 ∧
      (begin_input_mode s).display_value % 65536 = (begin_input_mode s).display_value) ∧
    (seg7multiplex_setup.display_value < 10000 ∧
      seg7multiplex_setup.display_value % 65536 = seg7multiplex_setup.display_value) := by
  refine ⟨?_, ?_, by norm_num [seg7multiplex_setup]⟩
  · intro s v hv hdc hdv
    have hcore : (push_digit s v).display_value < 10 ^ (push_digit s v).digit_count ∧
        (push_digit s v).digit_count ≤ DIGITS := by
      unfold push_digit
      by_cases hdot : v &&& 16 ≠ 0
      · rw [if_pos hdot]
        exact push_digit_flush_bound _ _ hdc hdv
      · rw [if_neg hdot]
        exact push_digit_flush_bound _ _ hdc hdv
    have hd4 : (push_digit s v).digit_count ≤ 4 := hcore.2
    have hlt : (push_digit s v).display_value < 10000 := by
      have hp : (10 : Nat) ^ (push_digit s v).digit_count ≤ 10 ^ 4 :=
        Nat.pow_le_pow_right (by norm_num) hd4
      have h4 : (10 : Nat) ^ 4 = 10000 := by norm_num
      have := hcore.1
      omega
    exact ⟨hlt, hcore.1, Nat.mod_eq_of_lt (by omega)⟩
  · intro s
    constructor
    · show (0 : Nat) < 10000
      norm_num
    · rfl

theorem display_value_stays_small_witness :
    (push_digit seg7multiplex_setup 7).display_value < 10000 ∧
    (push_digit seg7multiplex_setup 7).display_value
      < 10 ^ (push_digit seg7multiplex_setup 7).digit_count ∧
    (push_digit seg7multiplex_setup 7).display_value % 65536
      = (push_digit seg7multiplex_setup 7).display_value :=
  display_value_stays_small.1 seg7multiplex_setup 7 (by norm_num) (by decide) (by decide)

theorem push_digit_invalid_amended_witness :
    (push_digit seg7multiplex_setup 27).display_value = seg7multiplex_setup.display_value ∧
    (push_digit seg7multiplex_setup 27).digit_count = seg7multiplex_setup.digit_count ∧
    (push_digit seg7multiplex_setup 27).display_dotmask =
      (if 27 &&& 16 ≠ 0 then
        (seg7multiplex_setup.display_dotmask ||| (1 <<< seg7multiplex_setup.digit_count)) % 256
       else seg7multiplex_setup.display_dotmask) :=
  push_digit_invalid_amended seg7multiplex_setup 27 (by norm_num) (by decide)

end Seg7
